import Mathlib

/-!
Verification of the signal-fusion and forecasting engine of the metalstats
repository (src/forecast.py) against its natural-language specification.

Numeric model: Python floats are modelled as exact rationals (`ℚ`), or as reals
(`ℝ`) where the source takes square roots (standard deviations).  Python
`round(x, d)` (banker's rounding on binary floats) is modelled as rounding to
the nearest multiple of `10⁻ᵈ`; the tie-breaking convention is immaterial to
every property proved here.  `pandas` series are modelled as `List (Option ℚ)`
(one entry per row, `none` for a missing/NaN cell); `dropna` is `filterMap id`.
A rolling window statistic with the default `min_periods` is defined (`some`)
exactly when the window is full and contains no missing value, matching
`pandas.rolling`.
-/

namespace Forecast

/-- Clamp `x` into `[lo, hi]`, as the source's `max(lo, min(hi, x))` idiom. -/
def clampQ (lo hi x : ℚ) : ℚ := max lo (min hi x)

/-- Clamp over the reals, same idiom. -/
noncomputable def clampR (lo hi x : ℝ) : ℝ := max lo (min hi x)

/-- Python `round(x, d)` on rationals: nearest multiple of `10⁻ᵈ`. -/
def roundToQ (d : ℕ) (x : ℚ) : ℚ := ((round (x * 10 ^ d) : ℤ) : ℚ) / 10 ^ d

/-- Python `round(x, d)` on reals. -/
noncomputable def roundToR (d : ℕ) (x : ℝ) : ℝ := ((round (x * 10 ^ d) : ℤ) : ℝ) / 10 ^ d

/-- `round` is monotone (used for clamp/round commutation facts). -/
theorem round_mono' {α : Type _} [LinearOrderedField α] [FloorRing α]
    {x y : α} (h : x ≤ y) : round x ≤ round y := by
  rw [round_eq, round_eq]
  exact Int.floor_mono (by linarith)

theorem roundToQ_mono (d : ℕ) {x y : ℚ} (h : x ≤ y) : roundToQ d x ≤ roundToQ d y := by
  unfold roundToQ
  have h10 : (0 : ℚ) < 10 ^ d := by positivity
  have hm : x * 10 ^ d ≤ y * 10 ^ d := mul_le_mul_of_nonneg_right h (le_of_lt h10)
  have : ((round (x * 10 ^ d) : ℤ) : ℚ) ≤ ((round (y * 10 ^ d) : ℤ) : ℚ) := by
    exact_mod_cast round_mono' hm
  exact div_le_div_of_nonneg_right this h10.le

theorem roundToQ_zero (d : ℕ) : roundToQ d 0 = 0 := by
  simp [roundToQ]

theorem roundToQ_hundred (d : ℕ) : roundToQ d 100 = 100 := by
  have : ((100 : ℚ) * 10 ^ d) = ((100 * 10 ^ d : ℤ) : ℚ) := by push_cast; ring
  rw [roundToQ, this, round_intCast]
  push_cast
  field_simp

/-- The direction verdict of a composite forecast. -/
inductive Direction
  | BULLISH
  | NEUTRAL
  | BEARISH
deriving DecidableEq

/-- The part of a calculator's result dict that the composite combiner reads:
`d.get("score", 50)` and `d.get("details", "")`.  An absent `"score"` key is
`none`. -/
structure CompositeInput where
  score : Option ℚ
  details : String

/-- Result of `composite_forecast` (its returned dict). `signalScores` models the
`"signals"` entry (category, rounded score, details). -/
structure CompositeResult where
  direction : Direction
  composite_score : ℚ
  confidence : ℤ
  squeeze_probability : ℤ
  key_drivers : List String
  signalScores : List (String × ℚ × String)

/-- `name.replace("_", " ").title()` for the four fixed category keys. -/
def titleLabel : String → String
  | "trend_momentum" => "Trend Momentum"
  | "physical_stress" => "Physical Stress"
  | "arima_model" => "Arima Model"
  | "market_activity" => "Market Activity"
  | s => s

/-- Stable descending insertion on the deviation component, modelling Python's
stable `sorted(..., key=lambda x: x[1], reverse=True)`. -/
def insertDevDesc (x : String × ℚ × ℚ) : List (String × ℚ × ℚ) → List (String × ℚ × ℚ)
  | [] => [x]
  | y :: ys => if y.2.1 < x.2.1 then x :: y :: ys else y :: insertDevDesc x ys

def sortDevDesc : List (String × ℚ × ℚ) → List (String × ℚ × ℚ)
  | [] => []
  | x :: xs => insertDevDesc x (sortDevDesc xs)

/-- Mean of the four signal scores (`np.mean(score_values)`). -/
def mean4 (a b c d : ℚ) : ℚ := (a + b + c + d) / 4

/-- Population variance of the four scores (`np.std` uses `ddof=0`). -/
def popVar4 (a b c d : ℚ) : ℚ :=
  ((a - mean4 a b c d) ^ 2 + (b - mean4 a b c d) ^ 2 +
   (c - mean4 a b c d) ^ 2 + (d - mean4 a b c d) ^ 2) / 4

/-- Population standard deviation of the four scores (`np.std(score_values)`). -/
noncomputable def popStd4 (a b c d : ℚ) : ℝ := Real.sqrt ((popVar4 a b c d : ℚ) : ℝ)

/-- Shallow embedding of `composite_forecast` (src/forecast.py lines 886-963).
`ppSqueeze` models `physical.get("signals", {}).get("pp_squeeze", {})`: `some s`
when the `pp_squeeze` sub-dict is present, carrying its `"squeeze_score"` value
`s`; `none` when absent. -/
noncomputable def composite_forecast (trend physical arima market : CompositeInput)
    (ppSqueeze : Option ℚ) : CompositeResult :=
  let st := trend.score.getD 50
  let sp := physical.score.getD 50
  let sa := arima.score.getD 50
  let sm := market.score.getD 50
  -- weighted composite: sum(scores[k] * weights[k]) in dict insertion order
  let composite0 : ℚ := st * (30 / 100) + sp * (35 / 100) + sa * (20 / 100) + sm * (15 / 100)
  let composite : ℚ := roundToQ 1 (max 0 (min 100 composite0))
  -- direction from the composite
  let dir : Direction :=
    if composite ≥ 60 then .BULLISH
    else if composite ≤ 40 then .BEARISH
    else .NEUTRAL
  -- confidence from signal agreement
  let signal_strength : ℝ := |((mean4 st sp sa sm : ℚ) : ℝ) - 50| / 50
  let agreement : ℝ := max 0 (1 - popStd4 st sp sa sm / 25)
  let confidence : ℤ := max 10 (min 95 (round ((signal_strength * (6/10) + agreement * (4/10)) * 100)))
  -- squeeze probability from the physical signals
  let squeeze_prob : ℤ := match ppSqueeze with
    | some s => round s
    | none => 30
  -- key drivers: top three categories by |score - 50|
  let devs : List (String × ℚ × ℚ) :=
    [("trend_momentum", |st - 50|, st), ("physical_stress", |sp - 50|, sp),
     ("arima_model", |sa - 50|, sa), ("market_activity", |sm - 50|, sm)]
  let detailOf : String → String := fun k =>
    if k = "trend_momentum" then trend.details
    else if k = "physical_stress" then physical.details
    else if k = "arima_model" then arima.details
    else market.details
  let drivers : List String :=
    ((sortDevDesc devs).take 3).map fun kv =>
      let bullBear := if kv.2.2 > 50 then "bullish" else if kv.2.2 < 50 then "bearish" else "neutral"
      titleLabel kv.1 ++ ": " ++ bullBear ++ " (" ++ detailOf kv.1 ++ ")"
  { direction := dir
    composite_score := composite
    confidence := confidence
    squeeze_probability := squeeze_prob
    key_drivers := drivers
    signalScores :=
      [("trend_momentum", roundToQ 1 st, trend.details),
       ("physical_stress", roundToQ 1 sp, physical.details),
       ("arima_model", roundToQ 1 sa, arima.details),
       ("market_activity", roundToQ 1 sm, market.details)] }

/-! ### Spec-side formulas for the combiner (refinement targets)

These definitions follow the wording of spec §4.8 / §8, to be compared with the
code embedding above. -/

/-- Spec §8: `composite_score = clamp(round(Σ weight_i × score_i, 1), 0, 100)`. -/
def specCompositeScoreRoundFirst (t p a m : ℚ) : ℚ :=
  clampQ 0 100 (roundToQ 1 (0.30 * t + 0.35 * p + 0.20 * a + 0.15 * m))

/-- Claim C1 order: the weighted sum, clamped to `[0,100]`, rounded to one decimal. -/
def specCompositeScoreClampFirst (t p a m : ℚ) : ℚ :=
  roundToQ 1 (clampQ 0 100 (0.30 * t + 0.35 * p + 0.20 * a + 0.15 * m))

theorem clamp_round_comm (x : ℚ) :
    roundToQ 1 (clampQ 0 100 x) = clampQ 0 100 (roundToQ 1 x) := by
  unfold clampQ
  rcases le_total x 0 with h0 | h0
  · have hr : roundToQ 1 x ≤ 0 := by
      have := roundToQ_mono 1 h0
      rwa [roundToQ_zero] at this
    rw [min_eq_right (by linarith : x ≤ (100:ℚ)), max_eq_left h0,
      min_eq_right (by linarith : roundToQ 1 x ≤ (100:ℚ)), max_eq_left hr, roundToQ_zero]
  · rcases le_total 100 x with h100 | h100
    · have hr : (100:ℚ) ≤ roundToQ 1 x := by
        have := roundToQ_mono 1 h100
        rwa [roundToQ_hundred] at this
      rw [min_eq_left h100, max_eq_right (by norm_num : (0:ℚ) ≤ 100), roundToQ_hundred,
        min_eq_left hr, max_eq_right (by norm_num : (0:ℚ) ≤ 100)]
    · have hr0 : (0:ℚ) ≤ roundToQ 1 x := by
        have := roundToQ_mono 1 h0
        rwa [roundToQ_zero] at this
      have hr100 : roundToQ 1 x ≤ 100 := by
        have := roundToQ_mono 1 h100
        rwa [roundToQ_hundred] at this
      rw [min_eq_right h100, max_eq_right h0, min_eq_right hr100, max_eq_right hr0]

/-- C1: for every result of the composite combiner, `composite_score` equals the
weighted sum `0.30·trend + 0.35·physical + 0.20·arima + 0.15·market` (each score
defaulting to 50 when absent), clamped to `[0,100]` and rounded to one decimal;
equivalently (spec §8) rounded first and then clamped; and it always lies in
`[0,100]`. -/
theorem c1_composite_score (trend physical arima market : CompositeInput) (ppSq : Option ℚ) :
    (composite_forecast trend physical arima market ppSq).composite_score =
      specCompositeScoreClampFirst (trend.score.getD 50) (physical.score.getD 50)
        (arima.score.getD 50) (market.score.getD 50) ∧
    (composite_forecast trend physical arima market ppSq).composite_score =
      specCompositeScoreRoundFirst (trend.score.getD 50) (physical.score.getD 50)
        (arima.score.getD 50) (market.score.getD 50) ∧
    0 ≤ (composite_forecast trend physical arima market ppSq).composite_score ∧
    (composite_forecast trend physical arima market ppSq).composite_score ≤ 100 := by
  set st := trend.score.getD 50
  set sp := physical.score.getD 50
  set sa := arima.score.getD 50
  set sm := market.score.getD 50
  have hcode : (composite_forecast trend physical arima market ppSq).composite_score =
      roundToQ 1 (clampQ 0 100 (st * (30/100) + sp * (35/100) + sa * (20/100) + sm * (15/100))) := rfl
  have hsum : st * (30/100) + sp * (35/100) + sa * (20/100) + sm * (15/100) =
      0.30 * st + 0.35 * sp + 0.20 * sa + 0.15 * sm := by ring_nf
  have h1 : (composite_forecast trend physical arima market ppSq).composite_score =
      specCompositeScoreClampFirst st sp sa sm := by
    rw [hcode, specCompositeScoreClampFirst, hsum]
  refine ⟨h1, ?_, ?_, ?_⟩
  · rw [h1, specCompositeScoreClampFirst, specCompositeScoreRoundFirst, clamp_round_comm]
  · rw [h1, specCompositeScoreClampFirst, clamp_round_comm]
    exact le_max_left _ _
  · rw [h1, specCompositeScoreClampFirst, clamp_round_comm, clampQ]
    exact max_le (by norm_num) (min_le_left _ _)

/-- Spec §8 / §4.8: direction as a pure function of the composite score. -/
def specDirection (c : ℚ) : Direction :=
  if 60 ≤ c then .BULLISH else if c ≤ 40 then .BEARISH else .NEUTRAL

/-- C2: the combiner's direction is determined solely by the composite score:
`≥60 → BULLISH`, `≤40 → BEARISH`, strictly between `40` and `60` → `NEUTRAL`,
with the boundary values mapping exactly to BULLISH resp. BEARISH. -/
theorem c2_direction (trend physical arima market : CompositeInput) (ppSq : Option ℚ) :
    (composite_forecast trend physical arima market ppSq).direction =
      specDirection (composite_forecast trend physical arima market ppSq).composite_score ∧
    specDirection 60 = .BULLISH ∧
    specDirection 40 = .BEARISH ∧
    (∀ c : ℚ, 40 < c → c < 60 → specDirection c = .NEUTRAL) := by
  refine ⟨rfl, by rw [specDirection]; norm_num, by rw [specDirection]; norm_num, ?_⟩
  intro c h40 h60
  rw [specDirection, if_neg (by linarith), if_neg (by linarith)]

/-- Witness for C2: the NEUTRAL band and boundary facts at concrete points. -/
theorem c2_direction_witness :
    specDirection 60 = .BULLISH ∧ specDirection 40 = .BEARISH ∧ specDirection 50 = .NEUTRAL := by
  obtain ⟨-, h60, h40, hmid⟩ :=
    c2_direction ⟨none, ""⟩ ⟨none, ""⟩ ⟨none, ""⟩ ⟨none, ""⟩ none
  exact ⟨h60, h40, hmid 50 (by norm_num) (by norm_num)⟩

/-- Spec §4.8: `signal_strength = |mean(scores) − 50| / 50`. -/
noncomputable def specSignalStrength (a b c d : ℚ) : ℝ := |((mean4 a b c d : ℚ) : ℝ) - 50| / 50

/-- Spec §4.8: `agreement = max(0, 1 − stdev(scores)/25)` (with `np.std`'s
population standard deviation, which is what the source calls). -/
noncomputable def specAgreement (a b c d : ℚ) : ℝ := max 0 (1 - popStd4 a b c d / 25)

/-- Spec §4.8: `confidence = clamp(round((0.6×signal_strength + 0.4×agreement)×100), 10, 95)`. -/
noncomputable def specConfidence (a b c d : ℚ) : ℤ :=
  max 10 (min 95 (round ((0.6 * specSignalStrength a b c d + 0.4 * specAgreement a b c d) * 100)))

/-- C5: the combiner's confidence equals
`clamp(round((0.6×signal_strength + 0.4×agreement)×100), 10, 95)` with
`signal_strength = |mean(scores)−50|/50` and `agreement = max(0, 1−stdev/25)`,
and it always lies in `[10, 95]`. -/
theorem c5_confidence (trend physical arima market : CompositeInput) (ppSq : Option ℚ) :
    (composite_forecast trend physical arima market ppSq).confidence =
      specConfidence (trend.score.getD 50) (physical.score.getD 50)
        (arima.score.getD 50) (market.score.getD 50) ∧
    10 ≤ (composite_forecast trend physical arima market ppSq).confidence ∧
    (composite_forecast trend physical arima market ppSq).confidence ≤ 95 := by
  set st := trend.score.getD 50
  set sp := physical.score.getD 50
  set sa := arima.score.getD 50
  set sm := market.score.getD 50
  have hcode : (composite_forecast trend physical arima market ppSq).confidence =
      max 10 (min 95 (round (((|((mean4 st sp sa sm : ℚ) : ℝ) - 50| / 50) * (6/10) +
        (max 0 (1 - popStd4 st sp sa sm / 25)) * (4/10)) * 100))) := rfl
  have harg : ((|((mean4 st sp sa sm : ℚ) : ℝ) - 50| / 50) * (6/10) +
        (max 0 (1 - popStd4 st sp sa sm / 25)) * (4/10)) * 100 =
      (0.6 * specSignalStrength st sp sa sm + 0.4 * specAgreement st sp sa sm) * 100 := by
    rw [specSignalStrength, specAgreement]
    ring_nf
  refine ⟨?_, ?_, ?_⟩
  · rw [hcode, specConfidence, harg]
  · rw [hcode]; exact le_max_left _ _
  · rw [hcode]
    exact max_le (by norm_num) ((min_le_left _ _).trans (le_refl _))

/-! ### Series utilities (pandas semantics)

A series is a `List (Option ℚ)`; `none` is a missing/NaN cell.  `dropna` is
`List.filterMap id`.  Rolling statistics with the default `min_periods` are
defined only when the trailing window is full and free of missing values. -/

/-- `series.iloc[-1]` (callers guard non-emptiness; default 0 is never hit). -/
def lastD (xs : List ℚ) : ℚ := xs.getLastD 0

/-- `series.iloc[-k]` for `k ≥ 1`. -/
def iloc (k : ℕ) (xs : List ℚ) : ℚ := xs.getD (xs.length - k) 0

/-- The trailing window of length `w`. -/
def lastWindow (w : ℕ) (xs : List α) : List α := xs.drop (xs.length - w)

/-- Arithmetic mean. -/
def meanQ (xs : List ℚ) : ℚ := xs.sum / xs.length

/-- `series.rolling(w).mean().iloc[-1]`: defined iff the last `w` cells exist and
none is missing. -/
def rollingMeanLast (w : ℕ) (xs : List (Option ℚ)) : Option ℚ :=
  if 0 < w ∧ w ≤ xs.length ∧ (lastWindow w xs).all Option.isSome then
    some (meanQ ((lastWindow w xs).filterMap id))
  else none

/-- `series.rolling(w).var().iloc[-1]` with `ddof=1` (the pandas default used by
`.std()`); undefined for `w < 2` (sample variance of one point is NaN). -/
def rollingVarLast (w : ℕ) (xs : List (Option ℚ)) : Option ℚ :=
  if 2 ≤ w ∧ w ≤ xs.length ∧ (lastWindow w xs).all Option.isSome then
    let win := (lastWindow w xs).filterMap id
    some ((win.map (fun x => (x - meanQ win) ^ 2)).sum / ((w : ℚ) - 1))
  else none

/-- `series.rolling(w).mean().iloc[-1]` over a series with no missing values. -/
def smaLast (w : ℕ) (xs : List ℚ) : Option ℚ := rollingMeanLast w (xs.map some)

/-- Recursive step of `ewm(span, adjust=False).mean()`: `y_t = α·x_t + (1-α)·y_{t-1}`. -/
def emaFrom (a e : ℚ) : List ℚ → List ℚ
  | [] => []
  | x :: xs =>
    let e2 := a * x + (1 - a) * e
    e2 :: emaFrom a e2 xs

/-- `series.ewm(span, adjust=False).mean()` with `a = 2/(span+1)`; starts at `x₀`. -/
def emaList (a : ℚ) : List ℚ → List ℚ
  | [] => []
  | x :: xs => x :: emaFrom a x xs

/-- `series.diff()`: leading NaN, then consecutive differences. -/
def diff1 : List ℚ → List (Option ℚ)
  | [] => []
  | x :: xs => none :: (xs.zip (x :: xs)).map fun p => some (p.1 - p.2)

/-- `series.pct_change().dropna()`: consecutive relative changes (the leading NaN
dropped).  A zero previous value yields `±inf` in pandas and `0` here; no price
series in scope has zero values. -/
def pctChanges (xs : List ℚ) : List ℚ :=
  match xs with
  | [] => []
  | x :: xs => ((x :: xs).tail.zip (x :: xs)).map fun p => (p.1 - p.2) / p.2

/-! ### Decimal formatting helpers

Model of Python fixed-point f-string formats (`f"{x:.1f}"`, `f"{x:+.1f}"`).
Ties round half-up here versus the float half-even of CPython; no claim
depends on a formatted string at a tie. -/

def padZeros (d : ℕ) (s : String) : String :=
  String.mk (List.replicate (d - s.length) '0') ++ s

/-- `f"{x:.df}"`. -/
def fmtFixed (d : ℕ) (x : ℚ) : String :=
  let n : ℤ := round (x * 10 ^ d)
  let sign := if n < 0 then "-" else ""
  let m := n.natAbs
  if d = 0 then sign ++ toString m
  else sign ++ toString (m / 10 ^ d) ++ "." ++ padZeros d (toString (m % 10 ^ d))

/-- `f"{x:+.df}"` (explicit sign). -/
def fmtSigned (d : ℕ) (x : ℚ) : String :=
  let n : ℤ := round (x * 10 ^ d)
  let sign := if n < 0 then "-" else "+"
  let m := n.natAbs
  if d = 0 then sign ++ toString m
  else sign ++ toString (m / 10 ^ d) ++ "." ++ padZeros d (toString (m % 10 ^ d))

/-! ### Trend/momentum calculator (`compute_trend_signals`, lines 194-331) -/

/-- The SMA crossover alignment score (lines 221-234): plus or minus one for
each of `SMA5 > SMA20`, `price > SMA50`, `SMA20 > SMA50`. -/
def maAlignment (s : List ℚ) : ℤ :=
  let latest := lastD s
  let sma5v := (smaLast 5 s).getD latest
  let sma20v := (smaLast 20 s).getD latest
  let sma50v := (smaLast (min 50 s.length) s).getD latest
  (if sma5v > sma20v then 1 else -1) + (if latest > sma50v then 1 else -1) +
    (if sma20v > sma50v then 1 else -1)

/-- `delta.where(delta > 0, 0.0)`: the positive part; NaN cells become `0`
(a NaN comparison is False, so `where` substitutes the fill value). -/
def gains (s : List ℚ) : List (Option ℚ) :=
  (diff1 s).map fun d => some (match d with
    | some v => if v > 0 then v else 0
    | none => 0)

/-- `-(delta.where(delta < 0, 0.0))`: the negative part, negated; NaN cells → 0. -/
def losses (s : List ℚ) : List (Option ℚ) :=
  (diff1 s).map fun d => some (match d with
    | some v => if v < 0 then -v else 0
    | none => 0)

/-- Lines 250-255: the latest 14-period RSI; falls back to `50` whenever the
ratio is undefined — in particular when the 14-period average loss is zero
(`loss.replace(0, nan)` makes `rs`, hence the RSI, NaN). -/
def rsiLast (s : List ℚ) : ℚ :=
  match rollingMeanLast 14 (gains s), rollingMeanLast 14 (losses s) with
  | some g, some l => if l = 0 then 50 else 100 - 100 / (1 + g / l)
  | _, _ => 50

/-- The MACD histogram series: `macd_line - signal` with `macd_line = EMA12 - EMA26`
and `signal = EMA9(macd_line)` (lines 257-260). -/
def macdHist (s : List ℚ) : List ℚ :=
  let e12 := emaList (2 / 13) s
  let e26 := emaList (2 / 27) s
  let macd := e12.zipWith (fun a b => a - b) e26
  let signal := emaList (2 / 10) macd
  macd.zipWith (fun a b => a - b) signal

/-- Lines 262-264: histogram positive and rising. -/
def macdBullish (s : List ℚ) : Bool :=
  let h := macdHist s
  if 2 ≤ h.length then
    decide ((h.getLastD 0) > 0) && decide ((h.getLastD 0) > iloc 2 h)
  else false

/-- Lines 242-247: position within the Bollinger band, clamped to `[0,1]`;
`0.5` when the band is undefined or degenerate. -/
noncomputable def bbPosition (s : List ℚ) : ℝ :=
  match rollingVarLast 20 (s.map some), smaLast 20 s with
  | some v, some mid =>
    let sd : ℝ := Real.sqrt ((v : ℚ) : ℝ)
    let upper : ℝ := (mid : ℝ) + 2 * sd
    let lower : ℝ := (mid : ℝ) - 2 * sd
    let range := upper - lower
    if 0 < range then max 0 (min 1 ((((lastD s : ℚ) : ℝ) - lower) / range)) else 0.5
  | _, _ => 0.5

/-- Lines 266-268: 10-period rate of change (percent). -/
def roc10Last (s : List ℚ) : ℚ :=
  if 11 ≤ s.length then (lastD s / iloc 11 s - 1) * 100 else 0

/-- Lines 271-273: w-period return volatility in percent (0 when too short). -/
noncomputable def volLast (w : ℕ) (rets : List ℚ) : ℝ :=
  if w ≤ rets.length then
    match rollingVarLast w (rets.map some) with
    | some v => Real.sqrt ((v : ℚ) : ℝ) * 100
    | none => 0
  else 0

/-- The `indicators` dict of `compute_trend_signals` (lines 319-330). -/
structure TrendIndicators where
  sma5 : ℚ
  sma20 : ℚ
  sma50 : ℚ
  rsi : ℚ
  macd_bullish : Bool
  macd_histogram : ℚ
  bollinger_position : ℝ
  roc_10d : ℚ
  volatility_10d : ℝ
  volatility_20d : ℝ

/-- Result dict of `compute_trend_signals`; `indicators = none` models the empty
indicators map of the insufficient-data branch. -/
structure TrendResult where
  score : ℝ
  details : String
  indicators : Option TrendIndicators

/-- Shallow embedding of `compute_trend_signals` (src/forecast.py lines 194-331),
over the `settle` column.  An empty frame or missing column is the empty list. -/
noncomputable def compute_trend_signals (settle : List (Option ℚ)) : TrendResult :=
  let s := settle.filterMap id
  if s.length < 20 then { score := 50, details := "Insufficient price data", indicators := none }
  else
    let latest := lastD s
    let sma5v := (smaLast 5 s).getD latest
    let sma20v := (smaLast 20 s).getD latest
    let sma50v := (smaLast (min 50 s.length) s).getD latest
    let ma_score := maAlignment s
    let bb_pos := bbPosition s
    let latest_rsi := rsiLast s
    let macd_bull := macdBullish s
    let latest_roc := roc10Last s
    let rets := pctChanges s
    let ma_norm : ℚ := ((ma_score : ℚ) + 3) / 6 * 60 + 20
    let rsi_score : ℚ := if latest_rsi > 70 then 70 else if latest_rsi < 30 then 30 else latest_rsi
    let macd_score : ℚ := if macd_bull then 65 else 35
    let bb_score : ℝ := bb_pos * 100
    let score0 : ℝ := (ma_norm : ℝ) * (30 / 100) + (rsi_score : ℝ) * (25 / 100) +
      (macd_score : ℝ) * (25 / 100) + bb_score * (20 / 100)
    let score : ℝ := max 0 (min 100 score0)
    let details := String.intercalate ", "
      [if sma5v > sma20v then "SMA5 > SMA20" else "SMA5 < SMA20",
       if macd_bull then "MACD bullish" else "MACD bearish",
       "RSI " ++ fmtFixed 0 latest_rsi,
       "ROC(10) " ++ fmtSigned 1 latest_roc ++ "%"]
    { score := roundToR 1 score
      details := details
      indicators := some
        { sma5 := roundToQ 2 sma5v
          sma20 := roundToQ 2 sma20v
          sma50 := roundToQ 2 sma50v
          rsi := roundToQ 1 latest_rsi
          macd_bullish := macd_bull
          macd_histogram := roundToQ 4 ((macdHist s).getLastD 0)
          bollinger_position := roundToR 3 bb_pos
          roc_10d := roundToQ 2 latest_roc
          volatility_10d := roundToR 4 (volLast 10 rets)
          volatility_20d := roundToR 4 (volLast 20 rets) } }

/-- The insufficient-data result actually returned (lines 196-206). -/
theorem trend_short_series (settle : List (Option ℚ))
    (h : (settle.filterMap id).length < 20) :
    compute_trend_signals settle =
      { score := 50, details := "Insufficient price data", indicators := none } := by
  rw [compute_trend_signals, if_pos h]

/-- C6 counterexample: on a too-short series (here the empty one) the code's
rationale string is `"Insufficient price data"` (capital I), not the claim's
`"insufficient price data"`; score and empty indicators are as claimed. -/
theorem c6_counterexample :
    (compute_trend_signals []).details = "Insufficient price data" ∧
    "Insufficient price data" ≠ "insufficient price data" ∧
    (compute_trend_signals []).score = 50 ∧
    (compute_trend_signals []).indicators = none := by
  have h := trend_short_series [] (by simp)
  rw [h]
  exact ⟨rfl, by decide, rfl, rfl⟩

/-- C6 (amended): with fewer than 20 non-missing observations the trend
calculator returns score exactly 50, rationale `"Insufficient price data"`
(capitalised in the code) and an empty indicators map. -/
theorem c6_trend_insufficient (settle : List (Option ℚ))
    (h : (settle.filterMap id).length < 20) :
    (compute_trend_signals settle).score = 50 ∧
    (compute_trend_signals settle).details = "Insufficient price data" ∧
    (compute_trend_signals settle).indicators = none := by
  rw [trend_short_series settle h]
  exact ⟨rfl, rfl, rfl⟩

/-- Witness for C6 at a concrete 2-row series. -/
theorem c6_trend_insufficient_witness :
    (compute_trend_signals [some 1, none]).score = 50 ∧
    (compute_trend_signals [some 1, none]).details = "Insufficient price data" ∧
    (compute_trend_signals [some 1, none]).indicators = none :=
  c6_trend_insufficient [some 1, none] (by simp)

/-! ### The noiseless ascending scenario (spec §8, claim C7) -/

/-- The synthetic price series of spec §8's scenario: 25 strictly ascending
values with no noise. -/
def ramp25 : List ℚ :=
  [1, 2, 3, 4, 5, 6, 7, 8, 9, 10, 11, 12, 13,
   14, 15, 16, 17, 18, 19, 20, 21, 22, 23, 24, 25]

def ramp25O : List (Option ℚ) := ramp25.map some

theorem ramp25_dropna : ramp25O.filterMap id = ramp25 := by
  simp [ramp25O]

theorem ramp25_sma5 : smaLast 5 ramp25 = some 23 := by
  norm_num [smaLast, rollingMeanLast, lastWindow, meanQ, ramp25, List.filterMap_cons, id_eq]

theorem ramp25_sma20 : smaLast 20 ramp25 = some (31 / 2) := by
  norm_num [smaLast, rollingMeanLast, lastWindow, meanQ, ramp25, List.filterMap_cons, id_eq]

theorem ramp25_sma25 : smaLast 25 ramp25 = some 13 := by
  norm_num [smaLast, rollingMeanLast, lastWindow, meanQ, ramp25, List.filterMap_cons, id_eq]

theorem ramp25_last : lastD ramp25 = 25 := by
  norm_num [lastD, ramp25]

theorem ramp25_len : ramp25.length = 25 := by
  norm_num [ramp25]

theorem ramp25_ma : maAlignment ramp25 = 3 := by
  rw [maAlignment]
  rw [ramp25_last, ramp25_len]
  norm_num [ramp25_sma5, ramp25_sma20, ramp25_sma25]

/-- On the noiseless ascent every delta is `+1`, so the 14-period average loss is
zero and the RSI falls back to its neutral value 50 (lines 250-255). -/
theorem ramp25_rsi : rsiLast ramp25 = 50 := by
  norm_num [rsiLast, gains, losses, diff1, ramp25, rollingMeanLast, lastWindow, meanQ,
    List.filterMap_cons, id_eq]

/-- The 20-period sample variance of the last Bollinger window is exactly 35. -/
theorem ramp25_var : rollingVarLast 20 (ramp25.map some) = some 35 := by
  norm_num [rollingVarLast, lastWindow, meanQ, ramp25, List.filterMap_cons, id_eq]

set_option maxHeartbeats 2000000 in
/-- On the linear ramp the MACD histogram is positive but falling (the signal
line is still catching up to a converging MACD line), so the bullish flag is
off. -/
theorem ramp25_macd : macdBullish ramp25 = false := by
  norm_num [macdBullish, macdHist, emaList, emaFrom, ramp25, iloc, List.zipWith, lastD]

theorem sqrt35_pos : (0 : ℝ) < Real.sqrt 35 := Real.sqrt_pos.mpr (by norm_num)

theorem sqrt35_ub : Real.sqrt 35 ≤ 475 / 80 := by
  rw [show (475 / 80 : ℝ) = Real.sqrt ((475 / 80) ^ 2) by
    rw [Real.sqrt_sq (by norm_num)]]
  exact Real.sqrt_le_sqrt (by norm_num)

theorem sqrt35_lb : (475 / 81 : ℝ) < Real.sqrt 35 := by
  rw [Real.lt_sqrt (by norm_num)]
  norm_num

theorem ramp25_bbPos : bbPosition ramp25 = (9.5 + 2 * Real.sqrt 35) / (4 * Real.sqrt 35) := by
  have hS := sqrt35_pos
  unfold bbPosition
  rw [ramp25_var, ramp25_sma20]
  simp only [ramp25_last]
  have hcast : (((35 : ℚ) : ℝ)) = (35 : ℝ) := by norm_cast
  rw [hcast]
  rw [if_pos (by nlinarith)]
  have hval : (((25 : ℚ) : ℝ) - (((31 / 2 : ℚ) : ℝ) - 2 * Real.sqrt 35)) /
      ((((31 / 2 : ℚ) : ℝ) + 2 * Real.sqrt 35) - (((31 / 2 : ℚ) : ℝ) - 2 * Real.sqrt 35)) =
      (9.5 + 2 * Real.sqrt 35) / (4 * Real.sqrt 35) := by
    push_cast
    congr 1 <;> ring
  rw [hval]
  have h1 : (9.5 + 2 * Real.sqrt 35) / (4 * Real.sqrt 35) ≤ 1 := by
    rw [div_le_one (by nlinarith)]
    have : (4.75 : ℝ) ≤ Real.sqrt 35 := by
      rw [show (4.75 : ℝ) = Real.sqrt (4.75 ^ 2) by rw [Real.sqrt_sq (by norm_num)]]
      exact Real.sqrt_le_sqrt (by norm_num)
    nlinarith
  have h0 : (0 : ℝ) ≤ (9.5 + 2 * Real.sqrt 35) / (4 * Real.sqrt 35) := by positivity
  rw [min_eq_right h1, max_eq_right h0]

set_option maxHeartbeats 1000000 in
/-- The trend score on the noiseless 25-point ascent is exactly 63.3:
`0.30·80 + 0.25·50 + 0.25·35 + 0.20·(100·bb)` with `bb = (9.5+2√35)/(4√35)`. -/
theorem ramp25_score : (compute_trend_signals ramp25O).score = 633 / 10 := by
  have hS := sqrt35_pos
  have hub := sqrt35_ub
  have hlb := sqrt35_lb
  have hd1 : (8 : ℝ) ≤ 47.5 / Real.sqrt 35 := by
    rw [le_div_iff₀ hS]
    nlinarith
  have hd2 : 47.5 / Real.sqrt 35 < 8.1 := by
    rw [div_lt_iff₀ hS]
    nlinarith
  simp only [compute_trend_signals, ramp25_dropna, ramp25_len]
  rw [if_neg (by norm_num)]
  simp only [ramp25_ma, ramp25_rsi, ramp25_macd, ramp25_bbPos]
  norm_num
  have hfrac : ((19 / 2 : ℝ) + 2 * Real.sqrt 35) / (4 * Real.sqrt 35) * 100 * (1 / 5) =
      10 + 47.5 / Real.sqrt 35 := by
    field_simp
    ring
  rw [hfrac]
  have hmin : (100 : ℝ) ⊓ (181 / 4 + (10 + 47.5 / Real.sqrt 35)) =
      181 / 4 + (10 + 47.5 / Real.sqrt 35) := min_eq_right (by linarith)
  have hmax : (0 : ℝ) ⊔ (181 / 4 + (10 + 47.5 / Real.sqrt 35)) =
      181 / 4 + (10 + 47.5 / Real.sqrt 35) := max_eq_right (by linarith)
  rw [hmin, hmax, roundToR]
  have hround : round ((181 / 4 + (10 + 47.5 / Real.sqrt 35)) * 10 ^ 1) = (633 : ℤ) := by
    rw [round_eq, Int.floor_eq_iff]
    constructor
    · push_cast
      linarith
    · push_cast
      linarith
  rw [hround]
  norm_num

theorem roundToQ_fifty : roundToQ 1 (50 : ℚ) = 50 := by
  norm_num [roundToQ]

/-- The RSI reported in the indicators map on the ramp is 50. -/
theorem ramp25_indicator_rsi :
    ((compute_trend_signals ramp25O).indicators.map fun i => i.rsi) = some 50 := by
  simp only [compute_trend_signals, ramp25_dropna, ramp25_len]
  rw [if_neg (by norm_num)]
  simp only [Option.map_some', ramp25_rsi, roundToQ_fifty]

/-- C7 counterexample: on the synthetic 25-point strictly ascending noiseless
series the reported RSI is not 100 and the trend score does not exceed 70, so
the claim fails at this input. -/
theorem c7_counterexample :
    ((compute_trend_signals ramp25O).indicators.map fun i => i.rsi) ≠ some 100 ∧
    ¬ (70 < (compute_trend_signals ramp25O).score) := by
  constructor
  · rw [ramp25_indicator_rsi]
    intro h
    exact absurd (Option.some.inj h) (by norm_num)
  · rw [ramp25_score]
    norm_num

/-- C7 (amended): on the synthetic series of 25 strictly ascending values with
no noise (1, 2, …, 25) the moving-average alignment is indeed +3 (maximal
bullish), but the RSI reads 50 — the zero-average-loss fallback of §4.1, since a
noiseless ascent has no losses — and the composite trend score is exactly 63.3,
which does not exceed 70 (the MACD histogram is positive yet falling, so the
MACD contribution is 35, not 65). -/
theorem c7_trend_ramp :
    maAlignment ramp25 = 3 ∧
    ((compute_trend_signals ramp25O).indicators.map fun i => i.rsi) = some 50 ∧
    (compute_trend_signals ramp25O).score = 633 / 10 ∧
    macdBullish ramp25 = false :=
  ⟨ramp25_ma, ramp25_indicator_rsi, ramp25_score, ramp25_macd⟩

/-! ### Physical stress calculator (`compute_physical_signals`, lines 338-518) -/

/-- A `METALS` entry. -/
structure MetalConfig where
  symbol : String
  contract_size : ℚ
  unit : String

/-- Row of the inventory frame (`metal_snapshots`). -/
structure InvRow where
  registered : Option ℚ
  eligible : Option ℚ
  total : Option ℚ
deriving DecidableEq

/-- Row of the delivery frame (`delivery_snapshots`). -/
structure DelRow where
  settlement_price : Option ℚ
  daily_issued : Option ℚ
  daily_stopped : Option ℚ
  month_to_date : Option ℚ
deriving DecidableEq

/-- Row of the open-interest frame (`open_interest_snapshots`). -/
structure OIRow where
  open_interest : Option ℚ
  oi_change : Option ℚ
  total_volume : Option ℚ
deriving DecidableEq

/-- Row of the paper/physical frame (`paper_physical_snapshots`). -/
structure PPRow where
  pp_ratio : Option ℚ
  registered_inventory : Option ℚ
  open_interest : Option ℚ
deriving DecidableEq

/-- `series.diff(k)` as a list: `x_t − x_{t−k}`, NaN for the first `k` slots. -/
def diffK (k : ℕ) (xs : List ℚ) : List (Option ℚ) :=
  (List.range xs.length).map fun t =>
    if k ≤ t then some (xs.getD t 0 - xs.getD (t - k) 0) else none

/-- `series.rolling(w).std().iloc[-1]` (sample std, `ddof=1`). -/
noncomputable def rollingStdLast (w : ℕ) (xs : List (Option ℚ)) : Option ℝ :=
  (rollingVarLast w xs).map fun v => Real.sqrt ((v : ℚ) : ℝ)

/-- Python `int()` truncation toward zero on a rational. -/
def truncQ (x : ℚ) : ℤ := if x < 0 then -(⌊-x⌋) else ⌊x⌋

/-- Strip trailing zeros of the fractional digits (keeping at least one),
modelling the Python `str()` representation of a float rounded to `d` decimals
(used by `f"Inventory z={z}"`). -/
def stripZeros (s : String) : String :=
  let l := (s.toList.reverse.dropWhile fun c => c = '0').reverse
  if l = [] then "0" else String.mk l

/-- Python `str()` of a float that is an exact multiple of `10⁻ᵈ` (reals). -/
noncomputable def fmtReprR (d : ℕ) (x : ℝ) : String :=
  let n : ℤ := round (x * 10 ^ d)
  let sign := if n < 0 then "-" else ""
  let m := n.natAbs
  sign ++ toString (m / 10 ^ d) ++ "." ++ stripZeros (padZeros d (toString (m % 10 ^ d)))

/-- The `inventory_drawdown` sub-dict (lines 377-383). -/
structure InvDrawdownSignal where
  z_score : ℝ
  change_5d : ℚ
  interpretation : String

/-- The `delivery_acceleration` sub-dict (lines 403-412). -/
structure DelAccelSignal where
  current_daily : ℤ
  avg_20d : ℚ
  acceleration_ratio : ℚ
  interpretation : String

/-- The `pp_squeeze` sub-dict (lines 428-437). -/
structure PPSqueezeSignal where
  current_ratio : ℚ
  roc_5d_pct : ℚ
  squeeze_score : ℚ
  interpretation : String

/-- The `coverage_erosion` sub-dict (lines 458-466). -/
structure CoverageSignal where
  coverage_days : ℚ
  avg_daily_delivery : ℚ
  interpretation : String

/-- The `eligible_flow` sub-dict (lines 490-494). -/
structure FlowSignal where
  registered_change_5d : ℚ
  eligible_change_5d : ℚ
  interpretation : String

/-- The `signals` dict of `compute_physical_signals`. -/
structure PhysSignals where
  inventory_drawdown : Option InvDrawdownSignal
  delivery_acceleration : Option DelAccelSignal
  pp_squeeze : Option PPSqueezeSignal
  coverage_erosion : Option CoverageSignal
  eligible_flow : Option FlowSignal

/-- Result dict of `compute_physical_signals`. -/
structure PhysicalResult where
  score : ℝ
  details : String
  signals : PhysSignals

set_option linter.unusedVariables false in
/-- Shallow embedding of `compute_physical_signals` (src/forecast.py lines
338-518).  The `oi` frame is accepted and ignored, exactly as in the source.
Column-presence checks are always true under the fixed row schemas built by
`fetch_all_data`. -/
noncomputable def compute_physical_signals (inventory : List InvRow) (delivery : List DelRow)
    (oi : List OIRow) (pp : List PPRow) (metal_config : MetalConfig) : PhysicalResult :=
  -- inventory drawdown (lines 357-384)
  let invPart : Option (InvDrawdownSignal × ℝ) :=
    if inventory ≠ [] ∧ 10 ≤ inventory.length then
      let reg := (inventory.map fun r => r.registered).filterMap id
      if 10 ≤ reg.length then
        let change5 := diffK 5 reg
        let w := min 60 change5.length
        let latest_change := (change5.getLastD none).getD 0
        let latest_mean := (rollingMeanLast w change5).getD 0
        let latest_std : ℝ := (rollingStdLast w change5).getD 1
        let z : ℝ := if 0 < latest_std then (((latest_change - latest_mean : ℚ) : ℝ)) / latest_std else 0
        let zc : ℝ := max (-5) (min 5 z)
        let inv_score : ℝ := max 0 (min 100 (50 + (-zc * 15)))
        some ({ z_score := roundToR 2 zc
                change_5d := roundToQ 2 latest_change
                interpretation :=
                  if zc < -1.5 then "Rapid drawdown" else if zc > 1.5 then "Building" else "Normal" },
              inv_score)
      else none
    else none
  -- delivery acceleration (lines 387-413)
  let delPart : Option (DelAccelSignal × ℝ) :=
    if delivery ≠ [] ∧ 5 ≤ delivery.length then
      let issued := (delivery.map fun r => r.daily_issued).filterMap id
      if 5 ≤ issued.length then
        let latest_issued := lastD issued
        let latest_avg := (rollingMeanLast (min 20 issued.length) (issued.map some)).getD 1
        let accel := if 0 < latest_avg then latest_issued / latest_avg else 1
        let del_score := max 0 (min 100 (50 + (accel - 1) * 30))
        some ({ current_daily := truncQ latest_issued
                avg_20d := roundToQ 1 latest_avg
                acceleration_ratio := roundToQ 2 accel
                interpretation :=
                  if accel > 1.5 then "Surging"
                  else if accel > 1.2 then "Elevated"
                  else if accel < 0.7 then "Below average" else "Normal" },
              ((del_score : ℚ) : ℝ))
      else none
    else none
  -- paper/physical squeeze (lines 416-438): note `level_score = min(100, ratio*8)`
  -- has no lower clamp, unlike every sibling sub-score
  let squeezePart : Option (PPSqueezeSignal × ℝ) :=
    if pp ≠ [] ∧ 5 ≤ pp.length then
      let ppr := (pp.map fun r => r.pp_ratio).filterMap id
      if 5 ≤ ppr.length then
        let latest_pp := lastD ppr
        let pp5ago := if 5 ≤ ppr.length then iloc 5 ppr else ppr.getD 0 0
        let pp_roc := if 0 < pp5ago then (latest_pp - pp5ago) / pp5ago * 100 else 0
        let level_score := min 100 (latest_pp * 8)
        let trend_score := 50 + pp_roc * 5
        let squeeze_score := level_score * (6 / 10) + max 0 (min 100 trend_score) * (4 / 10)
        some ({ current_ratio := roundToQ 2 latest_pp
                roc_5d_pct := roundToQ 2 pp_roc
                squeeze_score := roundToQ 1 squeeze_score
                interpretation :=
                  if latest_pp > 10 then "Extreme"
                  else if latest_pp > 5 then "Elevated"
                  else if latest_pp > 2 then "Moderate" else "Low" },
              ((squeeze_score : ℚ) : ℝ))
      else none
    else none
  -- coverage erosion (lines 441-467)
  let covPart : Option (CoverageSignal × ℝ) :=
    if inventory ≠ [] ∧ delivery ≠ [] then
      let reg := (inventory.map fun r => r.registered).filterMap id
      let issued := (delivery.map fun r => r.daily_issued).filterMap id
      if 2 ≤ reg.length ∧ 5 ≤ issued.length then
        let latest_reg := lastD reg
        match rollingMeanLast (min 20 issued.length) (issued.map some) with
        | some avg_daily =>
          if 0 < avg_daily ∧ 0 < latest_reg then
            let coverage_days :=
              if 0 < metal_config.contract_size then
                latest_reg / (avg_daily * metal_config.contract_size)
              else 999
            let cov_score := max 0 (min 100 (100 - coverage_days * (5 / 10)))
            some ({ coverage_days := roundToQ 1 coverage_days
                    avg_daily_delivery := roundToQ 1 avg_daily
                    interpretation :=
                      if coverage_days < 30 then "Critical"
                      else if coverage_days < 90 then "Tight"
                      else if coverage_days < 365 then "Adequate" else "Comfortable" },
                  ((cov_score : ℚ) : ℝ))
          else none
        | none => none
      else none
    else none
  -- eligible-to-registered flow (lines 470-495); with the length guards the
  -- 5-period changes are never NaN, so the source's isnan test always passes
  let flowPart : Option (FlowSignal × ℝ) :=
    if inventory ≠ [] then
      let reg := (inventory.map fun r => r.registered).filterMap id
      let elig := (inventory.map fun r => r.eligible).filterMap id
      if 5 ≤ reg.length ∧ 5 ≤ elig.length then
        let reg_change := if 6 ≤ reg.length then ((diffK 5 reg).getLastD none).getD 0 else 0
        let elig_change := if 6 ≤ elig.length then ((diffK 5 elig).getLastD none).getD 0 else 0
        let fs : String × ℚ :=
          if 0 < reg_change ∧ elig_change < 0 then ("Eligible → Registered (delivery intent)", 65)
          else if reg_change < 0 then ("Registered declining (drawdown)", 70)
          else ("Stable", 50)
        some ({ registered_change_5d := roundToQ 2 reg_change
                eligible_change_5d := roundToQ 2 elig_change
                interpretation := fs.1 },
              ((fs.2 : ℚ) : ℝ))
      else none
    else none
  -- aggregate (lines 498-500)
  let comps : List ℝ :=
    ([invPart.map fun x => x.2, delPart.map fun x => x.2, squeezePart.map fun x => x.2,
      covPart.map fun x => x.2, flowPart.map fun x => x.2]).filterMap id
  let score : ℝ := if comps ≠ [] then roundToR 1 (comps.sum / comps.length) else 50
  -- details (lines 503-516)
  let parts : List String :=
    ([invPart.map fun x => "Inventory z=" ++ fmtReprR 2 x.1.z_score,
      delPart.map fun x => "Delivery accel " ++ fmtFixed 1 x.1.acceleration_ratio ++ "x",
      squeezePart.map fun x => "P/P " ++ fmtFixed 1 x.1.current_ratio ++ ":1",
      covPart.map fun x => "Coverage " ++ fmtFixed 0 x.1.coverage_days ++ "d"]).filterMap id
  { score := score
    details := if parts ≠ [] then String.intercalate ", " parts else "No physical signals"
    signals :=
      { inventory_drawdown := invPart.map fun x => x.1
        delivery_acceleration := delPart.map fun x => x.1
        pp_squeeze := squeezePart.map fun x => x.1
        coverage_erosion := covPart.map fun x => x.1
        eligible_flow := flowPart.map fun x => x.1 } }

/-- Copper's `METALS` entry. -/
def copperCfg : MetalConfig := { symbol := "HG", contract_size := 25000, unit := "lbs" }

/-- Five paper/physical rows with a (degenerate) constant ratio of −10. -/
def ppNeg : List PPRow :=
  [{ pp_ratio := some (-10), registered_inventory := none, open_interest := none },
   { pp_ratio := some (-10), registered_inventory := none, open_interest := none },
   { pp_ratio := some (-10), registered_inventory := none, open_interest := none },
   { pp_ratio := some (-10), registered_inventory := none, open_interest := none },
   { pp_ratio := some (-10), registered_inventory := none, open_interest := none }]

/-- C3 evaluation at the failing input: with only a paper/physical series whose
ratio is −10, the squeeze sub-score is `min(100, −10·8)·0.6 + 50·0.4 = −28`
(the level term has no lower clamp), it is the only aggregate component, and the
physical stress score is −28 — strictly below 0, violating the `0 ≤ score ≤ 100`
invariant of spec §8. -/
theorem c3_physical_score_negative :
    (compute_physical_signals [] [] [] ppNeg copperCfg).score = -28 ∧ ((-28 : ℝ) < 0) := by
  constructor
  · norm_num [compute_physical_signals, ppNeg, lastD, iloc, roundToR, List.filterMap_cons, id_eq,
      List.cons_ne_nil, round_eq]
  · norm_num

/-! ### Autoregressive forecaster (`run_arima_forecast`, lines 525-594) -/

/-- One `forecasts[f"{h}d"]` entry (lines 574-579): rounded level-scale bounds
and the percent change of the point forecast against the current price. -/
structure ArimaEntry where
  low : ℝ
  mid : ℝ
  high : ℝ
  pct_change : ℝ

/-- The external `pmdarima` auto-fit: the selected order and a `predict` oracle
returning, per horizon, the last log-scale point forecast with its 80 percent
interval bounds (`fc[-1]`, `conf_int[-1,0]`, `conf_int[-1,1]`) — or the message
of the exception the call raises. -/
structure ArimaModel where
  order : ℕ × ℕ × ℕ
  predict : ℕ → Except String (ℝ × ℝ × ℝ)

/-- Result dict of `run_arima_forecast`; `forecasts` keyed by horizon. -/
structure ArimaResult where
  score : ℝ
  details : String
  forecasts : List (ℕ × ArimaEntry)

/-- `f"ARIMA fitting failed: {str(e)[:60]}"` (line 592). -/
def arimaFailMsg (e : String) : String := "ARIMA fitting failed: " ++ e.take 60

/-- `f"{x:+.1f}"` over the reals. -/
noncomputable def fmtSignedR (d : ℕ) (x : ℝ) : String :=
  let n : ℤ := round (x * 10 ^ d)
  let sign := if n < 0 then "-" else "+"
  let m := n.natAbs
  sign ++ toString (m / 10 ^ d) ++ "." ++ padZeros d (toString (m % 10 ^ d))

/-- `f"ARIMA{model_order} projects {pct:+.1f}% over 5d"` (line 589). -/
noncomputable def arimaSuccessMsg (order : ℕ × ℕ × ℕ) (pct : ℝ) : String :=
  "ARIMA(" ++ toString order.1 ++ ", " ++ toString order.2.1 ++ ", " ++ toString order.2.2 ++
    ") projects " ++ fmtSignedR 1 pct ++ "% over 5d"

/-- The horizon loop of the `try` block (lines 567-579): accumulates one entry
per horizon until a `predict` call raises; Python's partially mutated `result`
dict survives into the `except` handler, so the entries built before the raise
are kept alongside the error. -/
noncomputable def arimaLoop (model : ArimaModel) (current_price : ℚ) :
    List ℕ → List (ℕ × ArimaEntry) → List (ℕ × ArimaEntry) × Option String
  | [], acc => (acc, none)
  | h :: hs, acc =>
    match model.predict h with
    | .error e => (acc, some e)
    | .ok (fc, lo, hi) =>
      let point := Real.exp fc
      let low := Real.exp lo
      let high := Real.exp hi
      let entry : ArimaEntry :=
        { low := roundToR 2 low
          mid := roundToR 2 point
          high := roundToR 2 high
          pct_change := roundToR 2 ((point - (current_price : ℝ)) / (current_price : ℝ) * 100) }
      arimaLoop model current_price hs (acc ++ [(h, entry)])

/-- Shallow embedding of `run_arima_forecast` (src/forecast.py lines 525-594)
over the `settle` column; the default horizons are `[5, 20]`.  `fit` is the
outcome of `import pmdarima` plus `pm.auto_arima(...)` — `.error` when either
raises.  Any caught exception leaves score 50 and records the reason; the
forecasts accumulated before the raise remain in the dict. -/
noncomputable def run_arima_forecast (settle : List (Option ℚ)) (horizons : List ℕ)
    (fit : Except String ArimaModel) : ArimaResult :=
  let s := settle.filterMap id
  if s.length < 30 then
    { score := 50, details := "Insufficient data for ARIMA", forecasts := [] }
  else
    let current_price := lastD s
    match fit with
    | .error e => { score := 50, details := arimaFailMsg e, forecasts := [] }
    | .ok model =>
      match arimaLoop model current_price horizons [] with
      | (fcs, some e) => { score := 50, details := arimaFailMsg e, forecasts := fcs }
      | (fcs, none) =>
        match fcs.lookup 5 with
        | some entry =>
          { score := roundToR 1 (max 0 (min 100 (50 + entry.pct_change * 10)))
            details := arimaSuccessMsg model.order entry.pct_change
            forecasts := fcs }
        | none =>
          { score := 50
            details := arimaSuccessMsg model.order 0
            forecasts := fcs }

/-- A 30-observation constant price series. -/
def exSettle : List (Option ℚ) := List.replicate 30 (some 100)

/-- A fit whose 5-day forecast succeeds and whose 20-day forecast raises. -/
def exFit : Except String ArimaModel :=
  .ok { order := (1, 0, 0)
        predict := fun h => if h = 5 then .ok (0, 0, 0) else .error "boom" }

theorem exSettle_dropna : exSettle.filterMap id = List.replicate 30 (100 : ℚ) := by
  simp [exSettle]

/-- Partial-failure evaluation shared by the C4 theorem and counterexample:
fit succeeded, the 5-day forecast was recorded, the 20-day call raised. -/
theorem arima_partial_failure (settle : List (Option ℚ)) (model : ArimaModel)
    (v : ℝ × ℝ × ℝ) (e : String) (h30 : 30 ≤ (settle.filterMap id).length)
    (hp5 : model.predict 5 = .ok v) (hp20 : model.predict 20 = .error e) :
    (run_arima_forecast settle [5, 20] (.ok model)).score = 50 ∧
    (run_arima_forecast settle [5, 20] (.ok model)).details = arimaFailMsg e ∧
    (run_arima_forecast settle [5, 20] (.ok model)).forecasts.map Prod.fst = [5] := by
  have hnot : ¬ (settle.filterMap id).length < 30 := Nat.not_lt.mpr h30
  obtain ⟨fc, lo, hi⟩ := v
  rw [run_arima_forecast, if_neg hnot]
  simp only [arimaLoop, hp5, hp20]
  refine ⟨?_, ?_, ?_⟩ <;> simp

/-- C4 (amended): whenever the fit or a forecast call raises, the exception is
caught, the score stays exactly 50 and the reason is recorded in the rationale;
the forecasts dict is empty when the failure happens at the fit or at the first
(5-day) horizon, but when the 20-day call raises after the 5-day one succeeded
the dict retains the 5-day entry (so it is not empty). -/
theorem c4_arima_error_handling (settle : List (Option ℚ)) (fit : Except String ArimaModel)
    (h30 : 30 ≤ (settle.filterMap id).length) :
    (∀ e, fit = .error e →
      run_arima_forecast settle [5, 20] fit =
        { score := 50, details := arimaFailMsg e, forecasts := [] }) ∧
    (∀ model e, fit = .ok model → model.predict 5 = .error e →
      run_arima_forecast settle [5, 20] fit =
        { score := 50, details := arimaFailMsg e, forecasts := [] }) ∧
    (∀ model v e, fit = .ok model → model.predict 5 = .ok v → model.predict 20 = .error e →
      (run_arima_forecast settle [5, 20] fit).score = 50 ∧
      (run_arima_forecast settle [5, 20] fit).details = arimaFailMsg e ∧
      (run_arima_forecast settle [5, 20] fit).forecasts.map Prod.fst = [5]) := by
  have hnot : ¬ (settle.filterMap id).length < 30 := Nat.not_lt.mpr h30
  refine ⟨?_, ?_, ?_⟩
  · intro e he
    rw [run_arima_forecast, if_neg hnot, he]
  · intro model e hm hp
    rw [run_arima_forecast, if_neg hnot, hm]
    simp only [arimaLoop, hp]
  · intro model v e hm hp5 hp20
    rw [hm]
    exact arima_partial_failure settle model v e h30 hp5 hp20

theorem exSettle_len : 30 ≤ (exSettle.filterMap id).length := by
  rw [exSettle_dropna, List.length_replicate]

set_option maxRecDepth 4000 in
/-- Witness for C4 at a fit that raises outright. -/
theorem c4_arima_error_handling_witness :
    run_arima_forecast exSettle [5, 20] (.error "boom") =
      { score := 50, details := arimaFailMsg "boom", forecasts := [] } :=
  (c4_arima_error_handling exSettle (.error "boom") exSettle_len).1 "boom" rfl

set_option maxRecDepth 10000 in
/-- C4 counterexample: a series and fit for which the forecasting step raises
(at the 20-day horizon, after the 5-day entry was recorded) yet the forecasts
dict is NOT empty — score 50 and the recorded reason hold as claimed, the
emptiness does not. -/
theorem c4_counterexample :
    (run_arima_forecast exSettle [5, 20] exFit).forecasts ≠ [] ∧
    (run_arima_forecast exSettle [5, 20] exFit).score = 50 ∧
    (run_arima_forecast exSettle [5, 20] exFit).details = "ARIMA fitting failed: boom" := by
  have h := arima_partial_failure exSettle
    { order := (1, 0, 0), predict := fun h => if h = 5 then .ok (0, 0, 0) else .error "boom" }
    (0, 0, 0) "boom" exSettle_len (by norm_num) (by norm_num)
  have hfit : (Except.ok { order := (1, 0, 0), predict := fun h => if h = 5 then .ok (0, 0, 0) else .error "boom" } : Except String ArimaModel) = exFit := rfl
  rw [hfit] at h
  refine ⟨?_, h.1, ?_⟩
  · intro hnil
    rw [hnil] at h
    exact absurd h.2.2 (by simp)
  · rw [h.2.1]
    rfl

/-! ### Market activity calculator (`compute_market_activity`, lines 601-670) -/

/-- Row of the combined price frame (`bulletin_snapshots`, lines 116-125 of
`fetch_all_data`; the four columns always exist once the frame is non-empty). -/
structure PriceRow where
  settle : Option ℚ
  volume : Option ℚ
  open_interest : Option ℚ
  oi_change : Option ℚ
deriving DecidableEq

/-- Result dict of `compute_market_activity`; the four optional fields model the
`metrics` entries, present exactly when the source inserts them. -/
structure MarketResult where
  score : ℚ
  details : String
  oi_10d_change_pct : Option ℚ
  volume_5d_avg : Option ℚ
  volume_20d_avg : Option ℚ
  volume_ratio : Option ℚ
deriving DecidableEq

/-- Shallow embedding of `compute_market_activity` (src/forecast.py lines
601-670).  The open-interest and volume series are taken from the price frame
whenever it is non-empty, else from the separate `oi` frame. -/
def compute_market_activity (prices : List PriceRow) (oi : List OIRow) : MarketResult :=
  -- OI trend (lines 612-628)
  let oi_series : Option (List ℚ) :=
    if prices ≠ [] then some ((prices.map fun r => r.open_interest).filterMap id)
    else if oi ≠ [] then some ((oi.map fun r => r.open_interest).filterMap id)
    else none
  let oiPart : Option (ℚ × ℚ) :=
    match oi_series with
    | some ser =>
      if 10 ≤ ser.length then
        let oi_latest := lastD ser
        let oi_10d_ago := if 10 ≤ ser.length then iloc 10 ser else ser.getD 0 0
        let oi_pct := if 0 < oi_10d_ago then (oi_latest - oi_10d_ago) / oi_10d_ago * 100 else 0
        some (max 0 (min 100 (50 + oi_pct * 2)), roundToQ 2 oi_pct)
      else none
    | none => none
  -- volume trend (lines 631-650)
  let vol_series : Option (List ℚ) :=
    if prices ≠ [] then some ((prices.map fun r => r.volume).filterMap id)
    else if oi ≠ [] then some ((oi.map fun r => r.total_volume).filterMap id)
    else none
  let volPart : Option (ℚ × ℚ × ℚ × ℚ) :=
    match vol_series with
    | some ser =>
      if 10 ≤ ser.length then
        match rollingMeanLast 5 (ser.map some),
              rollingMeanLast (min 20 ser.length) (ser.map some) with
        | some a5, some a20 =>
          if 0 < a20 then
            let vr := a5 / a20
            some (max 0 (min 100 (50 + (vr - 1) * 30)), roundToQ 0 a5, roundToQ 0 a20, roundToQ 2 vr)
          else none
        | _, _ => none
      else none
    | none => none
  let scores : List ℚ := ([oiPart.map fun x => x.1, volPart.map fun x => x.1]).filterMap id
  let parts : List String :=
    ([oiPart.map fun x =>
        "OI " ++ (if x.2 > 0 then "expanding" else "contracting") ++ " " ++ fmtFixed 1 |x.2| ++ "%",
      volPart.map fun x =>
        if x.2.2.2 > 1.2 then "volume elevated"
        else if x.2.2.2 < 0.8 then "volume light" else "volume normal"]).filterMap id
  { score := if scores ≠ [] then roundToQ 1 (scores.sum / scores.length) else 50
    details := if parts ≠ [] then String.intercalate ", " parts else "No market data"
    oi_10d_change_pct := oiPart.map fun x => x.2
    volume_5d_avg := volPart.map fun x => x.2.1
    volume_20d_avg := volPart.map fun x => x.2.2.1
    volume_ratio := volPart.map fun x => x.2.2.2 }

/-- C9: with a non-empty price frame the market activity calculator reads its
open-interest and volume series exclusively from the price frame — the result
is identical for any two separate open-interest frames — and when both price
columns hold fewer than 10 non-missing values the affected sub-scores are
omitted and the score is 50. -/
theorem c9_market_prices_only (prices : List PriceRow) (oi1 oi2 : List OIRow)
    (hne : prices ≠ []) :
    compute_market_activity prices oi1 = compute_market_activity prices oi2 ∧
    (((prices.map fun r => r.open_interest).filterMap id).length < 10 →
      ((prices.map fun r => r.volume).filterMap id).length < 10 →
      (compute_market_activity prices oi1).score = 50) := by
  constructor
  · rw [compute_market_activity, compute_market_activity]
    simp only [if_pos hne]
  · intro hoi hvol
    rw [compute_market_activity]
    simp only [if_pos hne, if_neg (Nat.not_le.mpr hoi), if_neg (Nat.not_le.mpr hvol)]
    simp

/-- A single all-missing price row. -/
def emptyPriceRow : PriceRow :=
  { settle := none, volume := none, open_interest := none, oi_change := none }

/-- A data-rich separate open-interest frame (12 rows). -/
def oiRich : List OIRow :=
  List.replicate 12 { open_interest := some 1000, oi_change := some 1, total_volume := some 500 }

/-- Witness for C9: a one-row all-missing price frame beats the data-rich
separate frame; both sub-scores are omitted and the score is 50. -/
theorem c9_market_prices_only_witness :
    compute_market_activity [emptyPriceRow] oiRich = compute_market_activity [emptyPriceRow] [] ∧
    (compute_market_activity [emptyPriceRow] oiRich).score = 50 := by
  have h := c9_market_prices_only [emptyPriceRow] oiRich [] (by simp)
  exact ⟨h.1, h.2 (by simp [emptyPriceRow]) (by simp [emptyPriceRow])⟩

/-! ### Forecast history evaluation (`update_forecast_history`, step 3, lines 1203-1247)

The database state is modelled explicitly: the `forecast_snapshots` table as a
list of snapshots and the `forecast_accuracy` table as a list of accuracy
records; dates are day numbers.  `current_prices m` is the run's price dict
entry for metal `m` (built on line 1205 from positive current prices). -/

/-- The columns of `forecast_snapshots` read by the evaluation query. -/
structure Snapshot where
  id : ℕ
  metal : String
  forecast_date : ℤ
  direction : Direction
  price_at_forecast : ℚ
deriving DecidableEq

/-- A `forecast_accuracy` row. -/
structure AccuracyRecord where
  snapshot_id : ℕ
  metal : String
  forecast_date : ℤ
  direction : Direction
  price_at_forecast : ℚ
  eval_date : ℤ
  eval_horizon_days : ℕ
  price_at_eval : ℚ
  price_change : ℚ
  price_change_pct : ℚ
  correct : Bool
deriving DecidableEq

/-- Does the accuracy table hold a row with unique key `(metal, forecast_date,
eval_horizon_days)`? -/
def hasAccKey (accs : List AccuracyRecord) (m : String) (d : ℤ) (h : ℕ) : Bool :=
  accs.any fun a => a.metal == m && a.forecast_date == d && a.eval_horizon_days == h

/-- The row inserted into `forecast_accuracy` (lines 1234-1242). -/
def mkAccRecord (today : ℤ) (fs : Snapshot) (price_now : ℚ) : AccuracyRecord :=
  let price_change := price_now - fs.price_at_forecast
  { snapshot_id := fs.id
    metal := fs.metal
    forecast_date := fs.forecast_date
    direction := fs.direction
    price_at_forecast := fs.price_at_forecast
    eval_date := today
    eval_horizon_days := 5
    price_at_eval := price_now
    price_change := price_change
    price_change_pct := price_change / fs.price_at_forecast * 100
    correct := decide ((fs.direction = Direction.BULLISH ∧ 0 < price_change) ∨
                       (fs.direction = Direction.BEARISH ∧ price_change < 0)) }

/-- One iteration of the insert loop (lines 1223-1243): skip when the current
price is absent or zero (Python's `not price_now`) or the snapshot price is
nonpositive; otherwise insert with `ON CONFLICT (metal, forecast_date,
eval_horizon_days) DO NOTHING`. -/
def evalStep (today : ℤ) (current_prices : String → Option ℚ)
    (acc : List AccuracyRecord) (fs : Snapshot) : List AccuracyRecord :=
  match current_prices fs.metal with
  | none => acc
  | some price_now =>
    if price_now = 0 ∨ fs.price_at_forecast ≤ 0 then acc
    else if hasAccKey acc fs.metal fs.forecast_date 5 then acc
    else acc ++ [mkAccRecord today fs price_now]

/-- The selection query (lines 1209-1219): non-NEUTRAL snapshots at least the
horizon (5 days) old with no accuracy row for that horizon yet. -/
def unevaluated (today : ℤ) (snaps : List Snapshot) (accs : List AccuracyRecord) :
    List Snapshot :=
  snaps.filter fun fs =>
    decide (fs.direction ≠ Direction.NEUTRAL) && decide (fs.forecast_date ≤ today - 5) &&
      !hasAccKey accs fs.metal fs.forecast_date 5

/-- The evaluation pass over the accuracy table (lines 1203-1247). -/
def evaluate_forecasts (today : ℤ) (current_prices : String → Option ℚ)
    (snaps : List Snapshot) (accs : List AccuracyRecord) : List AccuracyRecord :=
  (unevaluated today snaps accs).foldl (evalStep today current_prices) accs

/-- A snapshot passes the in-loop price guard. -/
def priceOk (current_prices : String → Option ℚ) (fs : Snapshot) : Prop :=
  ∃ pn, current_prices fs.metal = some pn ∧ pn ≠ 0 ∧ 0 < fs.price_at_forecast

theorem evalStep_append (today : ℤ) (prices : String → Option ℚ)
    (acc : List AccuracyRecord) (fs : Snapshot) :
    ∃ new, evalStep today prices acc fs = acc ++ new := by
  unfold evalStep
  cases prices fs.metal with
  | none => exact ⟨[], by simp⟩
  | some pn =>
    by_cases h1 : pn = 0 ∨ fs.price_at_forecast ≤ 0
    · exact ⟨[], by simp [h1]⟩
    · by_cases h2 : hasAccKey acc fs.metal fs.forecast_date 5
      · exact ⟨[], by simp [h1, h2]⟩
      · exact ⟨[mkAccRecord today fs pn], by simp [h1, h2]⟩

theorem foldl_evalStep_append (today : ℤ) (prices : String → Option ℚ) :
    ∀ (l : List Snapshot) (acc : List AccuracyRecord),
      ∃ new, l.foldl (evalStep today prices) acc = acc ++ new := by
  intro l
  induction l with
  | nil => exact fun acc => ⟨[], by simp⟩
  | cons fs l ih =>
    intro acc
    obtain ⟨n1, h1⟩ := evalStep_append today prices acc fs
    obtain ⟨n2, h2⟩ := ih (evalStep today prices acc fs)
    exact ⟨n1 ++ n2, by rw [List.foldl_cons, h2, h1, List.append_assoc]⟩

theorem hasAccKey_append (a b : List AccuracyRecord) (m : String) (d : ℤ) (h : ℕ) :
    hasAccKey (a ++ b) m d h = (hasAccKey a m d h || hasAccKey b m d h) := by
  simp [hasAccKey]

theorem hasAccKey_foldl (today : ℤ) (prices : String → Option ℚ)
    (l : List Snapshot) (acc : List AccuracyRecord) (m : String) (d : ℤ) (h : ℕ)
    (hk : hasAccKey acc m d h = true) :
    hasAccKey (l.foldl (evalStep today prices) acc) m d h = true := by
  obtain ⟨new, hn⟩ := foldl_evalStep_append today prices l acc
  rw [hn, hasAccKey_append, hk, Bool.true_or]

theorem evalStep_key (today : ℤ) (prices : String → Option ℚ)
    (acc : List AccuracyRecord) (fs : Snapshot) (h : priceOk prices fs) :
    hasAccKey (evalStep today prices acc fs) fs.metal fs.forecast_date 5 = true := by
  obtain ⟨pn, hp, hn0, hpos⟩ := h
  unfold evalStep
  rw [hp]
  dsimp only
  rw [if_neg (by push_neg; exact ⟨hn0, by linarith⟩)]
  by_cases hk : hasAccKey acc fs.metal fs.forecast_date 5
  · rw [if_pos hk]; exact hk
  · rw [if_neg hk, hasAccKey_append]
    simp [hasAccKey, mkAccRecord]

theorem foldl_evalStep_key (today : ℤ) (prices : String → Option ℚ) :
    ∀ (l : List Snapshot) (acc : List AccuracyRecord) (fs : Snapshot),
      fs ∈ l → priceOk prices fs →
      hasAccKey (l.foldl (evalStep today prices) acc) fs.metal fs.forecast_date 5 = true := by
  intro l
  induction l with
  | nil => intro acc fs h; exact absurd h (List.not_mem_nil fs)
  | cons g l ih =>
    intro acc fs hmem hok
    rw [List.foldl_cons]
    rcases List.mem_cons.mp hmem with heq | htail
    · subst heq
      exact hasAccKey_foldl today prices l _ _ _ _ (evalStep_key today prices acc fs hok)
    · exact ih _ fs htail hok

theorem evalStep_skip (today : ℤ) (prices : String → Option ℚ)
    (acc : List AccuracyRecord) (fs : Snapshot) (h : ¬ priceOk prices fs) :
    evalStep today prices acc fs = acc := by
  unfold evalStep
  cases hp : prices fs.metal with
  | none => rfl
  | some pn =>
    dsimp only
    rw [if_pos]
    by_contra hcon
    push_neg at hcon
    exact h ⟨pn, hp, hcon.1, by linarith [hcon.2]⟩

theorem foldl_evalStep_skip (today : ℤ) (prices : String → Option ℚ) :
    ∀ (l : List Snapshot), (∀ fs ∈ l, ¬ priceOk prices fs) →
      ∀ acc, l.foldl (evalStep today prices) acc = acc := by
  intro l
  induction l with
  | nil => intro _ acc; rfl
  | cons g l ih =>
    intro hall acc
    rw [List.foldl_cons, evalStep_skip today prices acc g (hall g (List.mem_cons_self g l))]
    exact ih (fun fs h => hall fs (List.mem_cons_of_mem g h)) acc

theorem foldl_evalStep_new (today : ℤ) (prices : String → Option ℚ) :
    ∀ (l : List Snapshot) (acc : List AccuracyRecord) (r : AccuracyRecord),
      r ∈ l.foldl (evalStep today prices) acc →
      r ∈ acc ∨ ∃ fs ∈ l, ∃ pn, r = mkAccRecord today fs pn := by
  intro l
  induction l with
  | nil => intro acc r hr; exact Or.inl hr
  | cons g l ih =>
    intro acc r hr
    rw [List.foldl_cons] at hr
    rcases ih _ r hr with hstep | ⟨fs, hfs, pn, hpn⟩
    · unfold evalStep at hstep
      cases hp : prices g.metal with
      | none => rw [hp] at hstep; exact Or.inl hstep
      | some pn =>
        rw [hp] at hstep
        dsimp only at hstep
        by_cases h1 : pn = 0 ∨ g.price_at_forecast ≤ 0
        · rw [if_pos h1] at hstep; exact Or.inl hstep
        · rw [if_neg h1] at hstep
          by_cases h2 : hasAccKey acc g.metal g.forecast_date 5
          · rw [if_pos h2] at hstep; exact Or.inl hstep
          · rw [if_neg h2] at hstep
            rcases List.mem_append.mp hstep with hin | hnew
            · exact Or.inl hin
            · exact Or.inr ⟨g, List.mem_cons_self g l, pn, (List.mem_singleton.mp hnew)⟩
    · exact Or.inr ⟨fs, List.mem_cons_of_mem g hfs, pn, hpn⟩

/-- C8: in the evaluation step an accuracy record for horizon 5 is created for a
snapshot only when the snapshot's forecast date is at least 5 days before today,
its direction is not NEUTRAL, and no record for that (metal, forecast_date,
horizon 5) key exists yet; the pass is append-only (existing rows unchanged) and
re-running it is a no-op (no duplicates, nothing modified). -/
theorem c8_accuracy_evaluation (today : ℤ) (prices : String → Option ℚ)
    (snaps : List Snapshot) (accs : List AccuracyRecord) :
    (∃ new, evaluate_forecasts today prices snaps accs = accs ++ new) ∧
    (∀ r ∈ evaluate_forecasts today prices snaps accs, r ∉ accs →
      r.eval_horizon_days = 5 ∧ r.forecast_date ≤ today - 5 ∧
      r.direction ≠ Direction.NEUTRAL ∧
      (∃ fs ∈ snaps, fs.metal = r.metal ∧ fs.forecast_date = r.forecast_date) ∧
      hasAccKey accs r.metal r.forecast_date 5 = false) ∧
    evaluate_forecasts today prices snaps (evaluate_forecasts today prices snaps accs) =
      evaluate_forecasts today prices snaps accs := by
  refine ⟨foldl_evalStep_append today prices _ accs, ?_, ?_⟩
  · intro r hr hnot
    rcases foldl_evalStep_new today prices _ accs r hr with hin | ⟨fs, hfs, pn, hpn⟩
    · exact absurd hin hnot
    · obtain ⟨hmem, hcond⟩ := List.mem_filter.mp hfs
      rw [Bool.and_eq_true, Bool.and_eq_true] at hcond
      obtain ⟨⟨hdir, hdate⟩, hkey⟩ := hcond
      rw [decide_eq_true_iff] at hdir hdate
      rw [Bool.not_eq_true'] at hkey
      have hm : r.metal = fs.metal := by rw [hpn]; rfl
      have hd : r.forecast_date = fs.forecast_date := by rw [hpn]; rfl
      have hdirr : r.direction = fs.direction := by rw [hpn]; rfl
      refine ⟨by rw [hpn]; rfl, by rw [hd]; exact hdate, by rw [hdirr]; exact hdir,
        ⟨fs, hmem, hm.symm, hd.symm⟩, by rw [hm, hd]; exact hkey⟩
  · apply foldl_evalStep_skip
    intro fs hmem hok
    obtain ⟨hmem2, hcond⟩ := List.mem_filter.mp hmem
    rw [Bool.and_eq_true, Bool.and_eq_true] at hcond
    obtain ⟨⟨hdir, hdate⟩, hkey⟩ := hcond
    rw [Bool.not_eq_true'] at hkey
    have hfs1 : fs ∈ unevaluated today snaps accs := by
      rw [unevaluated, List.mem_filter]
      refine ⟨hmem2, ?_⟩
      rw [Bool.and_eq_true, Bool.and_eq_true]
      refine ⟨⟨hdir, hdate⟩, ?_⟩
      rw [Bool.not_eq_true']
      by_contra hcon
      rw [Bool.not_eq_false] at hcon
      have := hasAccKey_foldl today prices (unevaluated today snaps accs) accs
        fs.metal fs.forecast_date 5 hcon
      rw [show (unevaluated today snaps accs).foldl (evalStep today prices) accs =
        evaluate_forecasts today prices snaps accs from rfl] at this
      rw [this] at hkey
      exact absurd hkey (by simp)
    have := foldl_evalStep_key today prices (unevaluated today snaps accs) accs fs hfs1 hok
    rw [show (unevaluated today snaps accs).foldl (evalStep today prices) accs =
      evaluate_forecasts today prices snaps accs from rfl] at this
    rw [this] at hkey
    exact absurd hkey (by simp)

/-- Witness for C8: one eligible snapshot over an empty accuracy table —
idempotence at a concrete state, via the theorem. -/
theorem c8_accuracy_evaluation_witness :
    evaluate_forecasts 100 (fun m => if m = "Gold" then some 120 else none)
        [{ id := 1, metal := "Gold", forecast_date := 90, direction := Direction.BULLISH,
           price_at_forecast := 100 }]
        (evaluate_forecasts 100 (fun m => if m = "Gold" then some 120 else none)
          [{ id := 1, metal := "Gold", forecast_date := 90, direction := Direction.BULLISH,
             price_at_forecast := 100 }] []) =
      evaluate_forecasts 100 (fun m => if m = "Gold" then some 120 else none)
        [{ id := 1, metal := "Gold", forecast_date := 90, direction := Direction.BULLISH,
           price_at_forecast := 100 }] [] :=
  (c8_accuracy_evaluation 100 (fun m => if m = "Gold" then some 120 else none)
    [{ id := 1, metal := "Gold", forecast_date := 90, direction := Direction.BULLISH,
       price_at_forecast := 100 }] []).2.2

/-! ### Local JSON forecast-history backup (`_write_accuracy_json_backup`, lines 1329-1368) -/

/-- One `calls[metal]` entry of a history entry (lines 1349-1354). -/
structure ForecastCall where
  direction : Direction
  confidence : ℤ
  composite_score : ℚ
  price_at_forecast : ℚ
deriving DecidableEq

/-- One entry of `history["forecasts"]`. -/
structure HistoryEntry where
  date : ℤ
  generated_at : String
  calls : List (String × ForecastCall)
deriving DecidableEq

/-- Shallow embedding of the `history["forecasts"]` update of
`_write_accuracy_json_backup` (src/forecast.py lines 1342-1359): append today's
entry only when no entry with today's date exists, then keep only the last 90
days.  Dates are day numbers — the source compares ISO `YYYY-MM-DD` strings,
whose lexicographic order is the chronological order. -/
def write_accuracy_json_backup (hist : List HistoryEntry) (today : ℤ)
    (generated_at : String) (calls : List (String × ForecastCall)) : List HistoryEntry :=
  let hist1 :=
    if hist.any fun e => decide (e.date = today) then hist
    else hist ++ [{ date := today, generated_at := generated_at, calls := calls }]
  hist1.filter fun e => decide (today - 90 ≤ e.date)

theorem countP_filter_le {α : Type _} (p q : α → Bool) :
    ∀ l : List α, (l.filter q).countP p ≤ l.countP p := by
  intro l
  induction l with
  | nil => simp
  | cons x l ih =>
    rw [List.filter_cons]
    by_cases hq : q x
    · rw [if_pos hq, List.countP_cons, List.countP_cons]
      by_cases hp : p x
      · simp only [hp, if_true]
        omega
      · simp only [hp, if_false]
        omega
    · rw [if_neg hq, List.countP_cons]
      by_cases hp : p x
      · simp only [hp, if_true]
        omega
      · simp only [hp, if_false]
        omega

/-- C10: the JSON backup keeps at most one entry per date (given a well-formed
input), a second run on a date with an existing entry changes nothing except the
90-day pruning (the first write for a date wins — in contrast to the DB snapshot
upsert), and every surviving entry is at most 90 days old and is either an input
entry or today's fresh one. -/
theorem c10_json_backup (hist : List HistoryEntry) (today : ℤ) (g : String)
    (calls : List (String × ForecastCall)) :
    ((∀ d, hist.countP (fun e => decide (e.date = d)) ≤ 1) →
      ∀ d, (write_accuracy_json_backup hist today g calls).countP
        (fun e => decide (e.date = d)) ≤ 1) ∧
    ((∃ e ∈ hist, e.date = today) →
      write_accuracy_json_backup hist today g calls =
        hist.filter fun e => decide (today - 90 ≤ e.date)) ∧
    (∀ e ∈ write_accuracy_json_backup hist today g calls,
      today - e.date ≤ 90 ∧ (e ∈ hist ∨ e.date = today)) := by
  refine ⟨?_, ?_, ?_⟩
  · intro hnd d
    unfold write_accuracy_json_backup
    by_cases hany : hist.any fun e => decide (e.date = today)
    · rw [if_pos hany]
      exact le_trans (countP_filter_le _ _ hist) (hnd d)
    · rw [if_neg hany]
      refine le_trans (countP_filter_le _ _ _) ?_
      rw [List.countP_append]
      by_cases hd : d = today
      · subst hd
        have h0 : hist.countP (fun e => decide (e.date = d)) = 0 := by
          rw [List.countP_eq_zero]
          intro e he
          simp only [decide_eq_true_iff]
          intro hcon
          rw [List.any_eq_true] at hany
          push_neg at hany
          exact absurd (by simpa using hany e he) (by simp [hcon])
        rw [h0]
        simp
      · have h1 : List.countP (fun e => decide (e.date = d))
            [({ date := today, generated_at := g, calls := calls } : HistoryEntry)] = 0 := by
          simp [Ne.symm hd]
        rw [h1]
        have := hnd d
        omega
  · intro ⟨e, he, hdate⟩
    unfold write_accuracy_json_backup
    rw [if_pos]
    rw [List.any_eq_true]
    exact ⟨e, he, by simp [hdate]⟩
  · intro e he
    unfold write_accuracy_json_backup at he
    rw [List.mem_filter] at he
    obtain ⟨hmem, hcond⟩ := he
    rw [decide_eq_true_iff] at hcond
    refine ⟨by linarith, ?_⟩
    by_cases hany : hist.any fun e => decide (e.date = today)
    · rw [if_pos hany] at hmem
      exact Or.inl hmem
    · rw [if_neg hany] at hmem
      rcases List.mem_append.mp hmem with hin | hnew
      · exact Or.inl hin
      · right
        rw [List.mem_singleton.mp hnew]

/-- Witness for C10: a two-entry history already holding today's date — the
second run only prunes, and all three conjuncts apply at the concrete state. -/
theorem c10_json_backup_witness :
    write_accuracy_json_backup
        [{ date := 10, generated_at := "a", calls := [] },
         { date := 200, generated_at := "b", calls := [] }] 200 "c" [] =
      List.filter (fun e => decide ((200 : ℤ) - 90 ≤ e.date))
        [{ date := 10, generated_at := "a", calls := [] },
         { date := 200, generated_at := "b", calls := [] }] :=
  (c10_json_backup
    [{ date := 10, generated_at := "a", calls := [] },
     { date := 200, generated_at := "b", calls := [] }] 200 "c" []).2.1
    ⟨{ date := 200, generated_at := "b", calls := [] }, by simp, rfl⟩

end Forecast
